import Mathlib

/-!
# Verification of the flappy-game component (src/src/App.tsx)

Shallow embedding of the game's state and its three operations:

* `jump` — the input handler (`jump` callback, App.tsx lines 30-45);
* `gameLoopStep` — one invocation of the per-frame `gameLoop`
  (App.tsx lines 61-89), parametrised by the random draw `r ∈ [0,1)`
  used for the spawned gap offset;
* `check` — one run of the collision-detection-and-scoring effect
  (App.tsx lines 98-132).

Numbers are modelled as rationals.  A scheduling subtlety of the source is
kept faithfully: inside `gameLoop`, the updates
`setBirdY(y => y + birdVelocity)` and the rotation update read the
`birdVelocity` value captured by the effect's closure — the velocity at the
start of the frame — not the value produced by the preceding
`setBirdVelocity(v => v + GRAVITY)` call.  Likewise `check` compares
`score` (the value at effect start) against `highScore`, and its early
`return` on a collision skips the remaining per-pipe work of that run.
-/

/-- A pipe obstacle: horizontal position, top of the gap, scored flag. -/
structure Pipe where
  x : ℚ
  gapY : ℚ
  passed : Bool
deriving DecidableEq, Repr

/-- The game phase: `'idle' | 'playing' | 'dead'` in the source. -/
inductive GameState where
  | idle
  | playing
  | dead
deriving DecidableEq, Repr

/-- The component state: the seven `useState` pieces plus `lastPipeRef`. -/
structure AppState where
  gameState : GameState
  birdY : ℚ
  birdVelocity : ℚ
  pipes : List Pipe
  score : ℕ
  highScore : ℕ
  birdRotation : ℚ
  lastPipe : ℚ
deriving DecidableEq, Repr

def GRAVITY : ℚ := 3/5
def JUMP_FORCE : ℚ := -10
def PIPE_WIDTH : ℚ := 80
def PIPE_GAP : ℚ := 180
def PIPE_SPEED : ℚ := 4
def BIRD_SIZE : ℚ := 50
def GAME_WIDTH : ℚ := 400
def GAME_HEIGHT : ℚ := 600

/-- The initial state of the component (the `useState` initialisers). -/
def initState : AppState :=
  { gameState := .idle
    birdY := GAME_HEIGHT / 2
    birdVelocity := 0
    pipes := []
    score := 0
    highScore := 0
    birdRotation := 0
    lastPipe := 0 }

/-- The `jump` callback (App.tsx lines 30-45). -/
def jump (s : AppState) : AppState :=
  match s.gameState with
  | .idle => { s with gameState := .playing, birdVelocity := JUMP_FORCE }
  | .playing => { s with birdVelocity := JUMP_FORCE }
  | .dead =>
      { s with birdY := GAME_HEIGHT / 2
               birdVelocity := 0
               pipes := []
               score := 0
               birdRotation := 0
               gameState := .idle }

/-- One pipe moved left by `PIPE_SPEED` (App.tsx lines 72-74). -/
def movePipe (p : Pipe) : Pipe := { p with x := p.x - PIPE_SPEED }

/-- The pipe spawned from random draw `r` (App.tsx lines 81-82):
`gapY = r * (GAME_HEIGHT - PIPE_GAP - 150) + 75`, at `x = GAME_WIDTH`. -/
def spawnPipe (r : ℚ) : Pipe :=
  { x := GAME_WIDTH
    gapY := r * (GAME_HEIGHT - PIPE_GAP - 150) + 75
    passed := false }

/-- One invocation of `gameLoop` (App.tsx lines 61-89); the surrounding
effect returns early unless `gameState = playing`.  `r` is the value of
`Math.random()` used if a pipe spawns this frame.  The position and
rotation updates read the closure-captured velocity `s.birdVelocity`,
not the incremented one. -/
def gameLoopStep (r : ℚ) (s : AppState) : AppState :=
  if s.gameState = .playing then
    if 200 < s.lastPipe + PIPE_SPEED then
      { s with birdVelocity := s.birdVelocity + GRAVITY
               birdY := max 0 (min (GAME_HEIGHT - BIRD_SIZE) (s.birdY + s.birdVelocity))
               birdRotation := min 90 (max (-30) (s.birdVelocity * 3))
               pipes := ((s.pipes.map movePipe).filter fun p => decide (-PIPE_WIDTH < p.x))
                 ++ [spawnPipe r]
               lastPipe := 0 }
    else
      { s with birdVelocity := s.birdVelocity + GRAVITY
               birdY := max 0 (min (GAME_HEIGHT - BIRD_SIZE) (s.birdY + s.birdVelocity))
               birdRotation := min 90 (max (-30) (s.birdVelocity * 3))
               pipes := (s.pipes.map movePipe).filter fun p => decide (-PIPE_WIDTH < p.x)
               lastPipe := s.lastPipe + PIPE_SPEED }
  else s

/-- The bird's fixed left edge (`const birdLeft = 80`, App.tsx line 101). -/
def birdLeft : ℚ := 80

/-- The per-pipe collision test (App.tsx lines 118-119):
horizontal overlap by strict inequalities, then outside-the-gap by strict
inequalities. -/
def pipeHit (y : ℚ) (p : Pipe) : Bool :=
  (decide (p.x < birdLeft + BIRD_SIZE) && decide (birdLeft < p.x + PIPE_WIDTH)) &&
    (decide (y < p.gapY) || decide (p.gapY + PIPE_GAP < y + BIRD_SIZE))

/-- The per-pipe scoring test (App.tsx line 127):
`!pipe.passed && pipe.x + PIPE_WIDTH < birdLeft`. -/
def scoreNow (p : Pipe) : Bool :=
  !p.passed && decide (p.x + PIPE_WIDTH < birdLeft)

/-- The `for (const pipe of pipes)` loop of the evaluator (App.tsx lines
114-131): returns the pipe list after in-place `passed` mutations, the
number of `setScore` increments issued, and whether the loop hit a
collision (and so returned early, leaving later pipes untouched). -/
def evalPipes (y : ℚ) : List Pipe → List Pipe × ℕ × Bool
  | [] => ([], 0, false)
  | p :: rest =>
      if pipeHit y p then (p :: rest, 0, true)
      else
        let p' := if scoreNow p then { p with passed := true } else p
        let inc : ℕ := if scoreNow p then 1 else 0
        let out := evalPipes y rest
        (p' :: out.1, inc + out.2.1, out.2.2)

/-- One run of the collision-detection-and-scoring effect (App.tsx lines
98-132).  The ground/ceiling test precedes the pipe loop; both death
branches compare the effect-start `score` against `highScore`. -/
def check (s : AppState) : AppState :=
  if s.gameState = .playing then
    if decide (s.birdY ≤ 0) || decide (GAME_HEIGHT ≤ s.birdY + BIRD_SIZE) then
      { s with gameState := .dead
               highScore := if s.highScore < s.score then s.score else s.highScore }
    else
      if (evalPipes s.birdY s.pipes).2.2 then
        { s with pipes := (evalPipes s.birdY s.pipes).1
                 score := s.score + (evalPipes s.birdY s.pipes).2.1
                 gameState := .dead
                 highScore := if s.highScore < s.score then s.score else s.highScore }
      else
        { s with pipes := (evalPipes s.birdY s.pipes).1
                 score := s.score + (evalPipes s.birdY s.pipes).2.1 }
  else s

/-- A pipe after the evaluator's scoring pass: marked `passed` once its
right edge is strictly left of the bird's left edge. -/
def markPassed (p : Pipe) : Pipe :=
  if decide (p.x + PIPE_WIDTH < birdLeft) then { p with passed := true } else p

/-- The states reachable from the initial render by any interleaving of
input events, frames (with any random draw in `[0,1)`), and evaluator
runs. -/
inductive Reachable : AppState → Prop where
  | base : Reachable initState
  | jmp {s} : Reachable s → Reachable (jump s)
  | stp {s} {r : ℚ} : Reachable s → 0 ≤ r → r < 1 → Reachable (gameLoopStep r s)
  | chk {s} : Reachable s → Reachable (check s)

/-! ## Basic unfolding lemmas -/

theorem jump_dead_eq {s : AppState} (h : s.gameState = .dead) :
    jump s = { s with birdY := GAME_HEIGHT / 2
                      birdVelocity := 0
                      pipes := []
                      score := 0
                      birdRotation := 0
                      gameState := .idle } := by
  unfold jump; rw [h]

theorem gameLoopStep_playing (r : ℚ) {s : AppState} (h : s.gameState = .playing) :
    (gameLoopStep r s).birdVelocity = s.birdVelocity + GRAVITY ∧
    (gameLoopStep r s).birdY =
      max 0 (min (GAME_HEIGHT - BIRD_SIZE) (s.birdY + s.birdVelocity)) := by
  unfold gameLoopStep
  rw [if_pos h]
  split <;> exact ⟨rfl, rfl⟩

/-- C1: the claim states that the position update of a frame uses the
post-gravity velocity.  In the source the `setBirdY` updater reads the
closure-captured `birdVelocity`, which is the frame's initial velocity,
so the claim fails: from `birdY = 300`, `birdVelocity = 0`, a frame
leaves `birdY` at `300`, not `300 + (0 + GRAVITY)`. -/
theorem C1_counterexample :
    (gameLoopStep 0 ⟨.playing, 300, 0, [], 0, 0, 0, 0⟩).birdY ≠
      max 0 (min (GAME_HEIGHT - BIRD_SIZE)
        ((⟨.playing, 300, 0, [], 0, 0, 0, 0⟩ : AppState).birdY +
          ((⟨.playing, 300, 0, [], 0, 0, 0, 0⟩ : AppState).birdVelocity + GRAVITY))) := by
  norm_num [gameLoopStep, GRAVITY, PIPE_SPEED, GAME_HEIGHT, BIRD_SIZE]

/-- C1 (amended): in every frame taken while `gameState = playing`, the
velocity is incremented by `GRAVITY`, and the position is incremented by
the frame's *initial* (pre-gravity) velocity and clamped to
`[0, GAME_HEIGHT - BIRD_SIZE]`. -/
theorem C1_positionUsesPreGravityVelocity (r : ℚ) (s : AppState)
    (h : s.gameState = .playing) :
    (gameLoopStep r s).birdVelocity = s.birdVelocity + GRAVITY ∧
    (gameLoopStep r s).birdY =
      max 0 (min (GAME_HEIGHT - BIRD_SIZE) (s.birdY + s.birdVelocity)) :=
  gameLoopStep_playing r h

/-- Witness for C1 (amended) at a concrete playing state. -/
theorem C1_positionUsesPreGravityVelocity_witness :
    (⟨.playing, 300, -10, [], 0, 0, 0, 0⟩ : AppState).gameState = .playing ∧
    (gameLoopStep 0 ⟨.playing, 300, -10, [], 0, 0, 0, 0⟩).birdVelocity = -10 + GRAVITY ∧
    (gameLoopStep 0 ⟨.playing, 300, -10, [], 0, 0, 0, 0⟩).birdY =
      max 0 (min (GAME_HEIGHT - BIRD_SIZE) (300 + -10)) :=
  ⟨rfl, C1_positionUsesPreGravityVelocity 0 ⟨.playing, 300, -10, [], 0, 0, 0, 0⟩ rfl⟩

/-- C5: triggering `jump` while `gameState = dead` resets the character
position to the playfield vertical center, the velocity to zero, the
obstacle list to empty, the score to zero and the rotation to zero, and
transitions the phase to `idle`. -/
theorem C5_activateOnEndedResets (s : AppState) (h : s.gameState = .dead) :
    jump s = { s with birdY := GAME_HEIGHT / 2
                      birdVelocity := 0
                      pipes := []
                      score := 0
                      birdRotation := 0
                      gameState := .idle } :=
  jump_dead_eq h

/-- Witness for C5 at a concrete dead state. -/
theorem C5_activateOnEndedResets_witness :
    (⟨.dead, 10, 5, [⟨100, 200, false⟩], 3, 7, 40, 120⟩ : AppState).gameState = .dead ∧
    jump ⟨.dead, 10, 5, [⟨100, 200, false⟩], 3, 7, 40, 120⟩ =
      ⟨.idle, 300, 0, [], 0, 7, 0, 120⟩ := by
  refine ⟨rfl, ?_⟩
  rw [C5_activateOnEndedResets _ rfl]
  norm_num [GAME_HEIGHT]

/-- C6: while `gameState = playing`, a bird whose top edge is at or above
the playfield top (`birdY ≤ 0`) or whose bottom edge is at or below the
playfield bottom (`birdY + BIRD_SIZE ≥ GAME_HEIGHT`) makes the evaluator
set the phase to `dead`. -/
theorem C6_boundaryEndsRound (s : AppState) (h : s.gameState = .playing)
    (hb : s.birdY ≤ 0 ∨ GAME_HEIGHT ≤ s.birdY + BIRD_SIZE) :
    (check s).gameState = .dead := by
  have hc : (decide (s.birdY ≤ 0) || decide (GAME_HEIGHT ≤ s.birdY + BIRD_SIZE)) = true := by
    rcases hb with hb | hb <;> simp [hb]
  unfold check
  rw [if_pos h, if_pos hc]

/-- Witness for C6: a bird at exactly the bottom edge
(`birdY = GAME_HEIGHT - BIRD_SIZE = 550`) dies. -/
theorem C6_boundaryEndsRound_witness :
    (⟨.playing, 550, 0, [], 0, 0, 0, 0⟩ : AppState).gameState = .playing ∧
    ((⟨.playing, 550, 0, [], 0, 0, 0, 0⟩ : AppState).birdY ≤ 0 ∨
      GAME_HEIGHT ≤ (⟨.playing, 550, 0, [], 0, 0, 0, 0⟩ : AppState).birdY + BIRD_SIZE) ∧
    (check ⟨.playing, 550, 0, [], 0, 0, 0, 0⟩).gameState = .dead :=
  ⟨rfl, Or.inr (by norm_num [GAME_HEIGHT, BIRD_SIZE]),
    C6_boundaryEndsRound ⟨.playing, 550, 0, [], 0, 0, 0, 0⟩ rfl
      (Or.inr (by norm_num [GAME_HEIGHT, BIRD_SIZE]))⟩

/-- C10: triggering `jump` while `gameState = dead` leaves the spawn
accumulator `lastPipe` untouched (only position, velocity, pipes, score,
rotation and phase are reset), so the leftover accumulator carries into
the next round: two dead states differing only in `lastPipe` (0 vs 198),
after reset, restart and one frame, differ in whether the first pipe of
the new round has already spawned. -/
theorem C10_accumulatorCarriesOver (s : AppState) (h : s.gameState = .dead) :
    (jump s).lastPipe = s.lastPipe ∧ (jump s).gameState = .idle ∧
    (gameLoopStep 0 (jump (jump ⟨.dead, 10, 5, [], 3, 7, 40, 0⟩))).pipes = [] ∧
    (gameLoopStep 0 (jump (jump ⟨.dead, 10, 5, [], 3, 7, 40, 198⟩))).pipes =
      [spawnPipe 0] := by
  refine ⟨?_, ?_,
    by norm_num [jump, gameLoopStep, PIPE_SPEED, GAME_HEIGHT],
    by norm_num [jump, gameLoopStep, PIPE_SPEED, GAME_HEIGHT]⟩
  · rw [jump_dead_eq h]
  · rw [jump_dead_eq h]

/-- Witness for C10 at a concrete dead state. -/
theorem C10_accumulatorCarriesOver_witness :
    (⟨.dead, 10, 5, [], 3, 7, 40, 120⟩ : AppState).gameState = .dead ∧
    (jump ⟨.dead, 10, 5, [], 3, 7, 40, 120⟩).lastPipe = 120 :=
  ⟨rfl, (C10_accumulatorCarriesOver ⟨.dead, 10, 5, [], 3, 7, 40, 120⟩ rfl).1⟩

/-! ## Effect of each operation on the character position -/

theorem jump_birdY (s : AppState) :
    (jump s).birdY = s.birdY ∨ (jump s).birdY = GAME_HEIGHT / 2 := by
  unfold jump
  cases hg : s.gameState <;> simp

theorem check_birdY (s : AppState) : (check s).birdY = s.birdY := by
  unfold check
  split
  · split
    · rfl
    · split
      · rfl
      · rfl
  · rfl

theorem gameLoopStep_birdY (r : ℚ) (s : AppState) :
    (gameLoopStep r s).birdY = s.birdY ∨
      (0 ≤ (gameLoopStep r s).birdY ∧
        (gameLoopStep r s).birdY ≤ GAME_HEIGHT - BIRD_SIZE) := by
  unfold gameLoopStep
  split
  · split
    · exact Or.inr ⟨le_max_left 0 _,
        max_le (by norm_num [GAME_HEIGHT, BIRD_SIZE]) (min_le_left _ _)⟩
    · exact Or.inr ⟨le_max_left 0 _,
        max_le (by norm_num [GAME_HEIGHT, BIRD_SIZE]) (min_le_left _ _)⟩
  · exact Or.inl rfl

/-- C2: in every reachable state — under any interleaving of input events,
frames and evaluator runs — the character's vertical position lies within
`[0, GAME_HEIGHT - BIRD_SIZE]` (that is, `[0, 550]`). -/
theorem C2_positionWithinBounds (s : AppState) (h : Reachable s) :
    0 ≤ s.birdY ∧ s.birdY ≤ GAME_HEIGHT - BIRD_SIZE := by
  induction h with
  | base => norm_num [initState, GAME_HEIGHT, BIRD_SIZE]
  | jmp _ ih =>
      rcases jump_birdY _ with he | he <;> rw [he]
      · exact ih
      · norm_num [GAME_HEIGHT, BIRD_SIZE]
  | stp _ _ _ ih =>
      rcases gameLoopStep_birdY _ _ with he | hb
      · rw [he]; exact ih
      · exact hb
  | chk _ ih => rw [check_birdY]; exact ih

/-- Witness for C2 at the initial state. -/
theorem C2_positionWithinBounds_witness :
    Reachable initState ∧
      0 ≤ initState.birdY ∧ initState.birdY ≤ GAME_HEIGHT - BIRD_SIZE :=
  ⟨Reachable.base, C2_positionWithinBounds initState Reachable.base⟩

/-! ## Characterisations of one evaluator run -/

theorem check_not_playing {s : AppState} (h : ¬(s.gameState = .playing)) :
    check s = s := by
  unfold check
  rw [if_neg h]

theorem check_boundary {s : AppState} (h : s.gameState = .playing)
    (hb : s.birdY ≤ 0 ∨ GAME_HEIGHT ≤ s.birdY + BIRD_SIZE) :
    check s = { s with gameState := .dead
                       highScore := if s.highScore < s.score then s.score
                         else s.highScore } := by
  unfold check
  rw [if_pos h, if_pos (by simp only [Bool.or_eq_true, decide_eq_true_eq]; exact hb)]

theorem check_playing_hitFlag {s : AppState} (h : s.gameState = .playing)
    (hnb : ¬(s.birdY ≤ 0 ∨ GAME_HEIGHT ≤ s.birdY + BIRD_SIZE))
    (hd : (evalPipes s.birdY s.pipes).2.2 = true) :
    check s = { s with pipes := (evalPipes s.birdY s.pipes).1
                       score := s.score + (evalPipes s.birdY s.pipes).2.1
                       gameState := .dead
                       highScore := if s.highScore < s.score then s.score
                         else s.highScore } := by
  unfold check
  rw [if_pos h, if_neg (by simpa using hnb), if_pos hd]

theorem check_playing_noHitFlag {s : AppState} (h : s.gameState = .playing)
    (hnb : ¬(s.birdY ≤ 0 ∨ GAME_HEIGHT ≤ s.birdY + BIRD_SIZE))
    (hd : (evalPipes s.birdY s.pipes).2.2 = false) :
    check s = { s with pipes := (evalPipes s.birdY s.pipes).1
                       score := s.score + (evalPipes s.birdY s.pipes).2.1 } := by
  unfold check
  rw [if_pos h, if_neg (by simpa using hnb), if_neg (by simp [hd])]

/-! ## The pipe loop of the evaluator -/

theorem pipeHit_iff (y : ℚ) (p : Pipe) :
    pipeHit y p = true ↔
      ((p.x < birdLeft + BIRD_SIZE ∧ birdLeft < p.x + PIPE_WIDTH) ∧
        ¬(p.gapY ≤ y ∧ y + BIRD_SIZE ≤ p.gapY + PIPE_GAP)) := by
  unfold pipeHit
  simp [not_and_or, not_le]
  intro _ _
  constructor
  · rintro (hlt | hgt) hle
    · exact absurd hle (not_le.2 hlt)
    · exact hgt
  · intro himp
    by_cases hle : p.gapY ≤ y
    · exact Or.inr (himp hle)
    · exact Or.inl (not_le.1 hle)

theorem evalPipes_died_iff (y : ℚ) (l : List Pipe) :
    (evalPipes y l).2.2 = true ↔ ∃ p ∈ l, pipeHit y p = true := by
  induction l with
  | nil => simp [evalPipes]
  | cons p rest ih =>
      by_cases hp : pipeHit y p = true
      · simp [evalPipes, hp]
      · simp [evalPipes, hp, ih]

/-- C3: while `gameState = playing` and the bird is strictly inside the
vertical play area, the evaluator ends the round exactly when some pipe
overlaps the bird's horizontal span (strict inequalities) and the bird's
vertical span is not entirely within that pipe's gap span (inclusive
bounds: touching a gap boundary exactly survives); in particular a bird
strictly inside every overlapping pipe's gap causes no phase
transition. -/
theorem C3_gapCollisionRule (s : AppState) (h : s.gameState = .playing)
    (h0 : 0 < s.birdY) (h1 : s.birdY + BIRD_SIZE < GAME_HEIGHT) :
    ((check s).gameState = .dead ↔
      ∃ p ∈ s.pipes,
        (p.x < birdLeft + BIRD_SIZE ∧ birdLeft < p.x + PIPE_WIDTH) ∧
        ¬(p.gapY ≤ s.birdY ∧ s.birdY + BIRD_SIZE ≤ p.gapY + PIPE_GAP)) := by
  have hnb : ¬(s.birdY ≤ 0 ∨ GAME_HEIGHT ≤ s.birdY + BIRD_SIZE) := by
    push_neg
    exact ⟨h0, h1⟩
  by_cases hd : (evalPipes s.birdY s.pipes).2.2 = true
  · rw [check_playing_hitFlag h hnb hd]
    refine ⟨fun _ => ?_, fun _ => rfl⟩
    rcases (evalPipes_died_iff s.birdY s.pipes).1 hd with ⟨p, hmem, hhit⟩
    exact ⟨p, hmem, (pipeHit_iff s.birdY p).1 hhit⟩
  · have hd' : (evalPipes s.birdY s.pipes).2.2 = false := by
      cases hb : (evalPipes s.birdY s.pipes).2.2
      · rfl
      · exact absurd hb hd
    rw [check_playing_noHitFlag h hnb hd']
    constructor
    · intro hc
      have hps : s.gameState = .dead := hc
      rw [h] at hps
      exact GameState.noConfusion hps
    · rintro ⟨p, hmem, hprop⟩
      have ht : (evalPipes s.birdY s.pipes).2.2 = true :=
        (evalPipes_died_iff _ _).2 ⟨p, hmem, (pipeHit_iff _ _).2 hprop⟩
      rw [hd'] at ht
      exact Bool.noConfusion ht

/-- Witness for C3: a bird strictly inside an overlapping pipe's gap, so
the round continues. -/
theorem C3_gapCollisionRule_witness :
    (⟨.playing, 300, 0, [⟨100, 200, false⟩], 0, 0, 0, 0⟩ : AppState).gameState
        = .playing ∧
    (0:ℚ) < (⟨.playing, 300, 0, [⟨100, 200, false⟩], 0, 0, 0, 0⟩ : AppState).birdY ∧
    (⟨.playing, 300, 0, [⟨100, 200, false⟩], 0, 0, 0, 0⟩ : AppState).birdY + BIRD_SIZE
        < GAME_HEIGHT ∧
    ((check ⟨.playing, 300, 0, [⟨100, 200, false⟩], 0, 0, 0, 0⟩).gameState = .dead ↔
      ∃ p ∈ (⟨.playing, 300, 0, [⟨100, 200, false⟩], 0, 0, 0, 0⟩ : AppState).pipes,
        (p.x < birdLeft + BIRD_SIZE ∧ birdLeft < p.x + PIPE_WIDTH) ∧
        ¬(p.gapY ≤ (300:ℚ) ∧ (300:ℚ) + BIRD_SIZE ≤ p.gapY + PIPE_GAP)) :=
  ⟨rfl, by norm_num, by norm_num [BIRD_SIZE, GAME_HEIGHT],
    C3_gapCollisionRule ⟨.playing, 300, 0, [⟨100, 200, false⟩], 0, 0, 0, 0⟩ rfl
      (by norm_num) (by norm_num [BIRD_SIZE, GAME_HEIGHT])⟩

/-! ## Scoring lemmas -/

theorem setPassed_of_passed {p : Pipe} (h : p.passed = true) :
    ({ p with passed := true } : Pipe) = p := by
  rcases p with ⟨x, g, pa⟩
  rw [show (Pipe.mk x g pa).passed = pa from rfl] at h
  rw [h]

theorem markPassed_eq (p : Pipe) :
    markPassed p = if scoreNow p then { p with passed := true } else p := by
  unfold markPassed scoreNow
  cases hp : p.passed
  · simp [hp]
  · simp only [hp, Bool.not_true, Bool.false_and, Bool.false_eq_true, if_false]
    split
    · exact setPassed_of_passed hp
    · rfl

theorem scoreNow_markPassed (p : Pipe) : scoreNow (markPassed p) = false := by
  unfold markPassed
  split
  · unfold scoreNow
    simp
  · rename_i hc
    have hd : decide (p.x + PIPE_WIDTH < birdLeft) = false := by
      simpa using hc
    unfold scoreNow
    simp [hd]

theorem pipeHit_markPassed (y : ℚ) (p : Pipe) :
    pipeHit y (markPassed p) = pipeHit y p := by
  unfold markPassed
  split
  · rfl
  · rfl

theorem evalPipes_no_hit {y : ℚ} {l : List Pipe}
    (h : ∀ p ∈ l, pipeHit y p = false) :
    evalPipes y l = (l.map markPassed, (l.filter scoreNow).length, false) := by
  induction l with
  | nil => simp [evalPipes]
  | cons p rest ih =>
      have hp : ¬(pipeHit y p = true) := by
        simp [h p (List.mem_cons_self p rest)]
      have hr := ih fun q hq => h q (List.mem_cons_of_mem p hq)
      cases hsc : scoreNow p <;>
        simp [evalPipes, hp, hr, List.filter_cons, hsc, markPassed_eq, Nat.add_comm]

theorem check_no_hit {s : AppState} (h : s.gameState = .playing)
    (h0 : 0 < s.birdY) (h1 : s.birdY + BIRD_SIZE < GAME_HEIGHT)
    (hs : ∀ p ∈ s.pipes, pipeHit s.birdY p = false) :
    check s = { s with pipes := s.pipes.map markPassed
                       score := s.score + (s.pipes.filter scoreNow).length } := by
  have hnb : ¬(s.birdY ≤ 0 ∨ GAME_HEIGHT ≤ s.birdY + BIRD_SIZE) := by
    push_neg
    exact ⟨h0, h1⟩
  have he := evalPipes_no_hit hs
  rw [check_playing_noHitFlag h hnb (by rw [he]), he]

/-- C4: the claim states that while `gameState = playing`, *every* pipe
with `passed = false` whose right edge is strictly left of the bird's
left edge is marked `passed` and scores one point when the evaluator
runs.  In the source the evaluator `return`s before the pipe loop when
the bird touches the ground or ceiling, so such a pipe is neither marked
nor scored in that run: at `birdY = 550` (bottom edge) with the
qualifying pipe `x = -4, passed = false`, the run ends the round but
leaves `score = 0` and `passed = false`. -/
theorem C4_counterexample :
    (⟨.playing, 550, 0, [⟨-4, 300, false⟩], 0, 0, 0, 0⟩ : AppState).gameState
        = .playing ∧
    (∃ p ∈ (⟨.playing, 550, 0, [⟨-4, 300, false⟩], 0, 0, 0, 0⟩ : AppState).pipes,
        p.passed = false ∧ p.x + PIPE_WIDTH < birdLeft) ∧
    (check ⟨.playing, 550, 0, [⟨-4, 300, false⟩], 0, 0, 0, 0⟩).score = 0 ∧
    (check ⟨.playing, 550, 0, [⟨-4, 300, false⟩], 0, 0, 0, 0⟩).pipes =
      [⟨-4, 300, false⟩] := by
  refine ⟨rfl, ⟨⟨-4, 300, false⟩, by simp, rfl, by norm_num [PIPE_WIDTH, birdLeft]⟩,
    ?_, ?_⟩
  · norm_num [check, GAME_HEIGHT, BIRD_SIZE]
  · norm_num [check, GAME_HEIGHT, BIRD_SIZE]

/-- C4 (amended): while `gameState = playing`, provided the run does not
end the round (no boundary contact and no colliding pipe), the evaluator
marks exactly the pipes whose right edge is strictly left of the bird's
left edge as `passed` (never unmarking any pipe), increments the score
by exactly one per pipe so newly marked, and a second evaluator run on
the resulting state adds no further increment. -/
theorem C4_scoringOncePerPipe (s : AppState) (h : s.gameState = .playing)
    (h0 : 0 < s.birdY) (h1 : s.birdY + BIRD_SIZE < GAME_HEIGHT)
    (hs : ∀ p ∈ s.pipes, pipeHit s.birdY p = false) :
    (check s).pipes = s.pipes.map markPassed ∧
    (check s).score = s.score + (s.pipes.filter scoreNow).length ∧
    (check (check s)).score = (check s).score := by
  have hc := check_no_hit h h0 h1 hs
  refine ⟨by rw [hc], by rw [hc], ?_⟩
  have h' : (check s).gameState = .playing := by rw [hc]; exact h
  have h0' : 0 < (check s).birdY := by rw [hc]; exact h0
  have h1' : (check s).birdY + BIRD_SIZE < GAME_HEIGHT := by rw [hc]; exact h1
  have hs' : ∀ p ∈ (check s).pipes, pipeHit (check s).birdY p = false := by
    rw [hc]
    intro p hp
    rcases List.mem_map.1 hp with ⟨q, hq, rfl⟩
    rw [show ({ s with pipes := s.pipes.map markPassed
                       score := s.score + (s.pipes.filter scoreNow).length } :
        AppState).birdY = s.birdY from rfl]
    rw [pipeHit_markPassed]
    exact hs q hq
  have hc2 := check_no_hit h' h0' h1' hs'
  rw [hc2]
  have hfe : ((check s).pipes.filter scoreNow) = [] := by
    rw [hc]
    rw [show ({ s with pipes := s.pipes.map markPassed
                       score := s.score + (s.pipes.filter scoreNow).length } :
        AppState).pipes = s.pipes.map markPassed from rfl]
    rw [List.filter_eq_nil_iff]
    intro p hp
    rcases List.mem_map.1 hp with ⟨q, hq, rfl⟩
    simp [scoreNow_markPassed]
  simp [hfe]

/-- Witness for C4 (amended): a single already-cleared pipe
(`x = -4`, `passed = false`) with the bird safely mid-screen is scored
exactly once. -/
theorem C4_scoringOncePerPipe_witness :
    (⟨.playing, 300, 0, [⟨-4, 100, false⟩], 0, 0, 0, 0⟩ : AppState).gameState
        = .playing ∧
    (0:ℚ) < 300 ∧ (300:ℚ) + BIRD_SIZE < GAME_HEIGHT ∧
    ((check ⟨.playing, 300, 0, [⟨-4, 100, false⟩], 0, 0, 0, 0⟩).pipes =
        ([⟨-4, 100, false⟩] : List Pipe).map markPassed ∧
      (check ⟨.playing, 300, 0, [⟨-4, 100, false⟩], 0, 0, 0, 0⟩).score =
        0 + (([⟨-4, 100, false⟩] : List Pipe).filter scoreNow).length ∧
      (check (check ⟨.playing, 300, 0, [⟨-4, 100, false⟩], 0, 0, 0, 0⟩)).score =
        (check ⟨.playing, 300, 0, [⟨-4, 100, false⟩], 0, 0, 0, 0⟩).score) := by
  have hs : ∀ p ∈ (⟨.playing, 300, 0, [⟨-4, 100, false⟩], 0, 0, 0, 0⟩ :
      AppState).pipes, pipeHit 300 p = false := by
    intro p hp
    rw [show (⟨.playing, 300, 0, [⟨-4, 100, false⟩], 0, 0, 0, 0⟩ :
        AppState).pipes = [⟨-4, 100, false⟩] from rfl] at hp
    rcases List.mem_singleton.1 hp with rfl
    have hnot : ¬(pipeHit 300 (⟨-4, 100, false⟩ : Pipe) = true) := by
      rw [pipeHit_iff]
      norm_num [birdLeft, PIPE_WIDTH]
    cases hb : pipeHit 300 (⟨-4, 100, false⟩ : Pipe)
    · rfl
    · exact absurd hb hnot
  exact ⟨rfl, by norm_num, by norm_num [BIRD_SIZE, GAME_HEIGHT],
    C4_scoringOncePerPipe ⟨.playing, 300, 0, [⟨-4, 100, false⟩], 0, 0, 0, 0⟩ rfl
      (by norm_num) (by norm_num [BIRD_SIZE, GAME_HEIGHT]) hs⟩

/-- C7: after a frame taken while `gameState = playing`, every pipe in the
list has `x > -PIPE_WIDTH` (no pipe sits at or beyond one pipe-width off
the left edge), and every pipe is either the freshly spawned pipe or an
old pipe moved left — so a pipe removed by the filter never reappears. -/
theorem C7_offscreenPipesRemoved (r : ℚ) (s : AppState)
    (h : s.gameState = .playing) :
    ∀ p ∈ (gameLoopStep r s).pipes,
      -PIPE_WIDTH < p.x ∧
      (p = spawnPipe r ∨ ∃ q ∈ s.pipes, p = movePipe q) := by
  unfold gameLoopStep
  rw [if_pos h]
  split
  · intro p hp
    rcases List.mem_append.1 hp with hp | hp
    · rcases List.mem_filter.1 hp with ⟨hmem, hx⟩
      rcases List.mem_map.1 hmem with ⟨q, hq, rfl⟩
      exact ⟨by simpa using hx, Or.inr ⟨q, hq, rfl⟩⟩
    · rcases List.mem_singleton.1 hp with rfl
      refine ⟨?_, Or.inl rfl⟩
      show -PIPE_WIDTH < GAME_WIDTH
      norm_num [GAME_WIDTH, PIPE_WIDTH]
  · intro p hp
    rcases List.mem_filter.1 hp with ⟨hmem, hx⟩
    rcases List.mem_map.1 hmem with ⟨q, hq, rfl⟩
    exact ⟨by simpa using hx, Or.inr ⟨q, hq, rfl⟩⟩

/-- Witness for C7: a pipe at `x = -78` is dropped by the frame, a pipe
at `x = 200` survives (moved), and the property holds for the result. -/
theorem C7_offscreenPipesRemoved_witness :
    (⟨.playing, 300, 0, [⟨-78, 100, false⟩, ⟨200, 150, true⟩], 0, 0, 0, 0⟩ :
        AppState).gameState = .playing ∧
    ∀ p ∈ (gameLoopStep 0
        ⟨.playing, 300, 0, [⟨-78, 100, false⟩, ⟨200, 150, true⟩], 0, 0, 0, 0⟩).pipes,
      -PIPE_WIDTH < p.x ∧
      (p = spawnPipe 0 ∨
        ∃ q ∈ (⟨.playing, 300, 0, [⟨-78, 100, false⟩, ⟨200, 150, true⟩], 0, 0, 0, 0⟩ :
          AppState).pipes, p = movePipe q) :=
  ⟨rfl, C7_offscreenPipesRemoved 0
    ⟨.playing, 300, 0, [⟨-78, 100, false⟩, ⟨200, 150, true⟩], 0, 0, 0, 0⟩ rfl⟩

/-- C8: when the advanced spawn accumulator exceeds the threshold `200`
during a frame, it is reset to `0` and exactly one new pipe is appended
after the moved-and-filtered old pipes, at `x = GAME_WIDTH` with
`passed = false`; for every random draw `r ∈ [0,1)` the spawned gap
offset satisfies `75 ≤ gapY` and `gapY + PIPE_GAP + 75 ≤ GAME_HEIGHT`,
so the gap plus margins fits inside the playfield. -/
theorem C8_spawnWithinBounds (r : ℚ) (s : AppState) (h : s.gameState = .playing)
    (hacc : 200 < s.lastPipe + PIPE_SPEED) (hr0 : 0 ≤ r) (hr1 : r < 1) :
    (gameLoopStep r s).lastPipe = 0 ∧
    (gameLoopStep r s).pipes =
      ((s.pipes.map movePipe).filter fun p => decide (-PIPE_WIDTH < p.x))
        ++ [spawnPipe r] ∧
    (spawnPipe r).x = GAME_WIDTH ∧
    (spawnPipe r).passed = false ∧
    75 ≤ (spawnPipe r).gapY ∧
    (spawnPipe r).gapY + PIPE_GAP + 75 ≤ GAME_HEIGHT := by
  have h2 : (GAME_HEIGHT - PIPE_GAP - 150 : ℚ) = 270 := by
    norm_num [GAME_HEIGHT, PIPE_GAP]
  unfold gameLoopStep
  rw [if_pos h, if_pos hacc]
  refine ⟨rfl, rfl, rfl, rfl, ?_, ?_⟩
  · show 75 ≤ r * (GAME_HEIGHT - PIPE_GAP - 150) + 75
    rw [h2]
    nlinarith
  · show r * (GAME_HEIGHT - PIPE_GAP - 150) + 75 + PIPE_GAP + 75 ≤ GAME_HEIGHT
    rw [h2, show (PIPE_GAP : ℚ) = 180 from by norm_num [PIPE_GAP],
      show (GAME_HEIGHT : ℚ) = 600 from by norm_num [GAME_HEIGHT]]
    nlinarith

/-- Witness for C8 at accumulator `197` (advanced to `201 > 200`) and
random draw `r = 1/2`. -/
theorem C8_spawnWithinBounds_witness :
    (⟨.playing, 300, 0, [], 0, 0, 0, 197⟩ : AppState).gameState = .playing ∧
    (200 : ℚ) < 197 + PIPE_SPEED ∧ (0:ℚ) ≤ 1/2 ∧ (1/2:ℚ) < 1 ∧
    ((gameLoopStep (1/2) ⟨.playing, 300, 0, [], 0, 0, 0, 197⟩).lastPipe = 0 ∧
      (gameLoopStep (1/2) ⟨.playing, 300, 0, [], 0, 0, 0, 197⟩).pipes =
        ((([] : List Pipe).map movePipe).filter fun p => decide (-PIPE_WIDTH < p.x))
          ++ [spawnPipe (1/2)] ∧
      (spawnPipe (1/2)).x = GAME_WIDTH ∧
      (spawnPipe (1/2)).passed = false ∧
      75 ≤ (spawnPipe (1/2)).gapY ∧
      (spawnPipe (1/2)).gapY + PIPE_GAP + 75 ≤ GAME_HEIGHT) :=
  ⟨rfl, by norm_num [PIPE_SPEED], by norm_num, by norm_num,
    C8_spawnWithinBounds (1/2) ⟨.playing, 300, 0, [], 0, 0, 0, 197⟩ rfl
      (by norm_num [PIPE_SPEED]) (by norm_num) (by norm_num)⟩

/-- C9: the best score never changes on input events or frames; an
evaluator run changes it only on the transition `playing → dead`, where
it becomes the round's score exactly when that score strictly exceeds
the stored best; and it is monotonically non-decreasing under every
operation. -/
theorem C9_highScoreMonotone (s : AppState) (r : ℚ) :
    (jump s).highScore = s.highScore ∧
    (gameLoopStep r s).highScore = s.highScore ∧
    s.highScore ≤ (check s).highScore ∧
    (check s).highScore =
      (if (check s).gameState = .dead ∧ s.gameState = .playing ∧
          s.highScore < s.score
        then s.score else s.highScore) := by
  have hchar : (check s).highScore =
      (if (check s).gameState = .dead ∧ s.gameState = .playing ∧
          s.highScore < s.score
        then s.score else s.highScore) := by
    by_cases hp : s.gameState = .playing
    · by_cases hb : s.birdY ≤ 0 ∨ GAME_HEIGHT ≤ s.birdY + BIRD_SIZE
      · rw [check_boundary hp hb]
        simp [hp]
      · by_cases hd : (evalPipes s.birdY s.pipes).2.2 = true
        · rw [check_playing_hitFlag hp hb hd]
          simp [hp]
        · rw [check_playing_noHitFlag hp hb (Bool.eq_false_iff.mpr hd)]
          simp [hp]
    · rw [check_not_playing hp]
      simp [hp]
  refine ⟨?_, ?_, ?_, hchar⟩
  · unfold jump
    cases hg : s.gameState <;> rfl
  · unfold gameLoopStep
    split
    · split <;> rfl
    · rfl
  · rw [hchar]
    split
    · rename_i hcond
      exact le_of_lt hcond.2.2
    · exact le_refl _
